import Mathlib

/-!
Verification of the train/serve feature-pipeline of the Chicago-taxi
tutorial notebook (`doc/source/ray-air/examples/tfx_tabular_train_to_serve.ipynb`).

The notebook chains five `SimpleImputer`s, a `OneHotEncoder` and two
`BatchMapper`s (`batch_mapper_fn`, `concat_for_tensor`) into a preprocessor,
trains a Keras model and serves it.  The notebook-level functions
(`get_data`, `split_data`, `batch_mapper_fn`, `concat_for_tensor`,
`serve_model`'s request path) are embedded from the notebook source;
the Ray-library preprocessors (`SimpleImputer`, `OneHotEncoder`, `Chain`),
the distributed fit protocol, the checkpoint serialization and the
inference service are not part of the repository sources and are
modelled from the specification, as marked on each definition.

Numeric cells are modelled as exact rationals; `Value.missing` models
pandas `NaN`/`None`, and a packed tensor row is a `List (Option ℚ)`
with `none` standing for a `NaN` float entry.
-/

attribute [local semireducible] Rat.add Rat.sub Rat.mul Rat.inv

deriving instance DecidableEq for Except

namespace TaxiPipe

abbrev Col := String

/-- A non-missing scalar cell value (numeric, categorical string, boolean). -/
inductive Scalar
  | num (q : ℚ)
  | str (s : String)
  | bool (b : Bool)
deriving DecidableEq, Repr

/-- A cell of a DataFrame.  `missing` models `NaN`/`None`; `vec` models a
`TensorArray` row produced by `concat_for_tensor` (`none` = float `NaN`). -/
inductive Value
  | num (q : ℚ)
  | str (s : String)
  | bool (b : Bool)
  | missing
  | vec (v : List (Option ℚ))
deriving DecidableEq, Repr

def Scalar.toValue : Scalar → Value
  | .num q => .num q
  | .str s => .str s
  | .bool b => .bool b

/-- The scalar content of a cell, if any (missing values and packed vectors
carry no scalar). -/
def Value.scalar? : Value → Option Scalar
  | .num q => some (.num q)
  | .str s => some (.str s)
  | .bool b => some (.bool b)
  | .missing => none
  | .vec _ => none

/-- Error taxonomy of the pipeline (spec §7).  The embedded notebook code can
only raise the first four kinds; there is no `DimensionError` anywhere in the
source, see the packing-transform theorems. -/
inductive Err
  | schemaError (c : Col)
  | notFittedError
  | insufficientDataError (c : Col)
  | conversionError
deriving DecidableEq, Repr

/-- Imputation strategies used by the notebook's `SimpleImputer`s. -/
inductive Strategy
  | mean
  | mostFrequent
deriving DecidableEq, Repr

/-- One stage of the chained preprocessor, with its (optional) fitted state.
`imputer`/`oneHot` are modelled from the spec (their implementation lives in
the Ray library, outside this repository); `mapYear` embeds the notebook's
`batch_mapper_fn` and `mapConcat` embeds `concat_for_tensor`. -/
inductive Transform
  | imputer (cols : List Col) (strat : Strategy) (fitted : Option (List (Col × Scalar)))
  | oneHot (caps : List (Col × Option Nat)) (fitted : Option (List (Col × List Scalar)))
  | mapYear
  | mapConcat
deriving DecidableEq, Repr

abbrev Pipeline := List Transform

/-- A row, as pandas presents it: column-tagged cells. -/
abbrev Row := List (Col × Value)

/-- A pandas DataFrame: a schema (ordered column names, kept even when there
are zero rows) and the rows. -/
structure DataFrame where
  cols : List Col
  rows : List Row
deriving DecidableEq, Repr

/-- Cell lookup in a row by column name (missing key reads as `NaN`). -/
def findCol (c : Col) : Row → Option Value
  | [] => none
  | (d, v) :: r => if d = c then some v else findCol c r

def cellAt (r : Row) (c : Col) : Value := (findCol c r).getD .missing

/-- `mapM` over `Except`, spelled out for easy reasoning. -/
def mapME (f : α → Except Err β) : List α → Except Err (List β)
  | [] => .ok []
  | a :: as => do
      let b ← f a
      let bs ← mapME f as
      .ok (b :: bs)

def LABEL : Col := "is_big_tip"

def tsCol : Col := "trip_start_timestamp"

def yearCol : Col := "trip_start_year"

/-- First declared column absent from the incoming schema, if any. -/
def firstMissing (targets cols : List Col) : Option Col :=
  targets.find? (fun c => decide (c ∉ cols))

/-- Name of a one-hot indicator column for a retained category
(`{col}_{value}` as produced by the encoder). -/
def scalarTag : Scalar → String
  | .num q => toString q.num ++ "p" ++ toString q.den
  | .str s => s
  | .bool b => toString b

def indName (c : Col) (cat : Scalar) : Col := c ++ "_" ++ scalarTag cat

def otherName (c : Col) : Col := c ++ "_other"

/-- Civil year of a unix-seconds timestamp
(embeds `pd.to_datetime(col, unit="s").dt.year` of `batch_mapper_fn`,
via the standard civil-calendar conversion). -/
def yearOfUnix (q : ℚ) : Int :=
  let z : Int := ⌊q / 86400⌋ + 719468
  let era : Int := Int.ediv z 146097
  let doe : Int := z - era * 146097
  let yoe : Int := Int.ediv (doe - Int.ediv doe 1460 + Int.ediv doe 36524 - Int.ediv doe 146096) 365
  let y : Int := yoe + era * 400
  let doy : Int := doe - (365 * yoe + Int.ediv yoe 4 - Int.ediv yoe 100)
  let mp : Int := Int.ediv (5 * doy + 2) 153
  let m : Int := if mp < 10 then mp + 3 else mp - 9
  if m ≤ 2 then y + 1 else y

/-- `pd.to_datetime(·, unit="s").dt.year` on one cell: numeric seconds give
the civil year, a missing cell stays missing (`NaT.year` is `NaN`), anything
else fails the conversion. -/
def yearVal : Value → Except Err Value
  | .num q => .ok (.num (yearOfUnix q))
  | .missing => .ok .missing
  | _ => .error .conversionError

/-- Cast of one cell to a float32 tensor entry
(embeds `.to_numpy(dtype=np.float32)` in `concat_for_tensor`):
numerics and booleans cast, `NaN` stays `NaN`, strings fail. -/
def toF32 : Value → Except Err (Option ℚ)
  | .num q => .ok (some q)
  | .bool b => .ok (some (if b then 1 else 0))
  | .missing => .ok none
  | _ => .error .conversionError

/-- Imputation of one cell.  Modelled from the spec:
"apply replaces missing values with the fitted value; non-missing values
pass through unchanged" (the `SimpleImputer` implementation lives in the
Ray library, outside this repository). -/
def impCell (fitted : List (Col × Scalar)) (c : Col) (v : Value) : Value :=
  match (fitted.find? (fun p => p.1 = c)) with
  | some p => if v = .missing then p.2.toValue else v
  | none => v

/-- One-hot expansion of one column-tagged cell.  Modelled from the spec:
"apply produces one binary indicator column per retained category (plus
\"other\"); at serving time a category unseen during fit must map to
\"other\", never to an error" (the `OneHotEncoder` implementation lives in
the Ray library, outside this repository). -/
def oheCell (fitted : List (Col × List Scalar)) (p : Col × Value) : Row :=
  match (fitted.find? (fun q => q.1 = p.1)) with
  | some q =>
      q.2.map (fun cat => (indName p.1 cat, Value.num (if p.2 = cat.toValue then 1 else 0)))
        ++ [(otherName p.1, Value.num (if q.2.all (fun cat => decide (p.2 ≠ cat.toValue)) then 1 else 0))]
  | none => [p]

/-- Schema produced by a transform from an incoming schema, or the schema
error it raises; every transform checks its columns against the schema alone
(as pandas/Ray do), so zero-row frames are checked identically. -/
def tCols : Transform → List Col → Except Err (List Col)
  | .imputer cs _ fitted, cols =>
      match fitted with
      | none => .error .notFittedError
      | some _ =>
          match firstMissing cs cols with
          | some c => .error (.schemaError c)
          | none => .ok cols
  | .oneHot caps fitted, cols =>
      match fitted with
      | none => .error .notFittedError
      | some f =>
          match firstMissing (caps.map (·.1)) cols with
          | some c => .error (.schemaError c)
          | none =>
              .ok (cols.flatMap (fun c =>
                match (f.find? (fun q => q.1 = c)) with
                | some q => q.2.map (indName c) ++ [otherName c]
                | none => [c]))
  | .mapYear, cols =>
      if tsCol ∈ cols then .ok (cols.filter (fun c => decide (c ≠ tsCol)) ++ [yearCol])
      else .error (.schemaError tsCol)
  | .mapConcat, cols =>
      if LABEL ∈ cols then .ok (["input", LABEL])
      else .error (.schemaError LABEL)

/-- Row-level action of a transform.  `mapYear` embeds `batch_mapper_fn`
(derive `trip_start_year`, drop the timestamp), `mapConcat` embeds
`concat_for_tensor` (pack every non-label column, in schema order, into one
vector and carry the label through: `result[LABEL] = dataframe[LABEL]`). -/
def rowFun : Transform → List Col → Row → Except Err Row
  | .imputer _ _ fitted, _, row =>
      match fitted with
      | none => .error .notFittedError
      | some f => .ok (row.map (fun p => (p.1, impCell f p.1 p.2)))
  | .oneHot _ fitted, _, row =>
      match fitted with
      | none => .error .notFittedError
      | some f => .ok (row.flatMap (oheCell f))
  | .mapYear, _, row => do
      let yv ← yearVal (cellAt row tsCol)
      .ok (row.filter (fun p => decide (p.1 ≠ tsCol)) ++ [(yearCol, yv)])
  | .mapConcat, cols, row => do
      let fs ← mapME (fun c => toF32 (cellAt row c)) (cols.filter (fun c => decide (c ≠ LABEL)))
      .ok [("input", .vec fs), (LABEL, cellAt row LABEL)]

/-- Application of one transform to a batch: schema check/translation, then
the row action on every row. -/
def applyTransform (t : Transform) (df : DataFrame) : Except Err DataFrame := do
  let cols' ← tCols t df.cols
  let rows' ← mapME (rowFun t df.cols) df.rows
  .ok ⟨cols', rows'⟩

/-- Application of the chained pipeline (embeds `Chain`: run every transform
in sequence, surfacing the first failure). -/
def applyPipeline : Pipeline → DataFrame → Except Err DataFrame
  | [], df => .ok df
  | t :: ts, df => do applyPipeline ts (← applyTransform t df)

/-- Schema action of a whole pipeline. -/
def pipeCols : Pipeline → List Col → Except Err (List Col)
  | [], cols => .ok cols
  | t :: ts, cols => do pipeCols ts (← tCols t cols)

/-! ### Fitting and the distributed-fit protocol

The per-column partial statistic of the spec's `FitContext` ("value-count
tables ... summed entrywise, sums and counts summed") is modelled as the
multiset of observed non-missing scalar values of the column: a value-count
table is exactly a multiset, and entrywise summing is multiset addition. -/

def colValues (df : DataFrame) (c : Col) : List Value :=
  df.rows.map (fun r => cellAt r c)

/-- Modelled from the spec: the per-worker partial statistic for one column
(the value-count table over observed, non-missing entries). -/
def colStats (l : List Value) : Multiset Scalar :=
  ↑(l.filterMap Value.scalar?)

/-- Modelled from the spec: the reduction step that merges two partial
statistics ("count tables summed entrywise, sums and counts summed"). -/
def mergeStats (a b : Multiset Scalar) : Multiset Scalar := a + b

/-- Kernel-computable lexicographic comparison of character lists (by code
point), used for the canonical ordering of string categories. -/
def clLe : List Char → List Char → Bool
  | [], _ => true
  | _ :: _, [] => false
  | c :: cs, d :: ds =>
      if c = d then clLe cs ds else decide (c.toNat < d.toNat)

theorem clLe_total : ∀ l m : List Char, clLe l m = true ∨ clLe m l = true
  | [], _ => .inl rfl
  | _ :: _, [] => .inr rfl
  | c :: cs, d :: ds => by
      by_cases hcd : c = d
      · subst hcd
        simpa [clLe] using clLe_total cs ds
      · have hdc : d ≠ c := fun h => hcd h.symm
        have hne : c.toNat ≠ d.toNat := fun h => hcd (Char.ext (UInt32.ext h))
        simp only [clLe, if_neg hcd, if_neg hdc, decide_eq_true_eq]
        omega

theorem clLe_antisymm : ∀ l m : List Char, clLe l m = true → clLe m l = true → l = m
  | [], [], _, _ => rfl
  | [], _ :: _, _, h2 => by simp [clLe] at h2
  | _ :: _, [], h1, _ => by simp [clLe] at h1
  | c :: cs, d :: ds, h1, h2 => by
      by_cases hcd : c = d
      · subst hcd
        simp only [clLe, if_pos rfl] at h1 h2
        rw [clLe_antisymm cs ds h1 h2]
      · have hdc : d ≠ c := fun h => hcd h.symm
        simp only [clLe, if_neg hcd, if_neg hdc, decide_eq_true_eq] at h1 h2
        omega

theorem clLe_trans : ∀ l m n : List Char,
    clLe l m = true → clLe m n = true → clLe l n = true
  | [], _, _, _, _ => rfl
  | _ :: _, [], _, h1, _ => by simp [clLe] at h1
  | _ :: _, _ :: _, [], _, h2 => by simp [clLe] at h2
  | c :: cs, d :: ds, e :: es, h1, h2 => by
      by_cases hcd : c = d <;> by_cases hde : d = e
      · subst hcd; subst hde
        simp only [clLe, if_pos rfl] at h1 h2 ⊢
        exact clLe_trans cs ds es h1 h2
      · subst hcd
        simpa [clLe, hde] using h2
      · subst hde
        simpa [clLe, hcd] using h1
      · have hce : c ≠ e := by
          intro h
          subst h
          simp only [clLe, if_neg hcd, if_neg hde, decide_eq_true_eq] at h1 h2
          have hne : c.toNat ≠ d.toNat := fun h => hcd (Char.ext (UInt32.ext h))
          omega
        simp only [clLe, if_neg hcd, if_neg hde, if_neg hce, decide_eq_true_eq] at h1 h2 ⊢
        omega

/-- The canonical total order on scalars used for the spec-mandated
deterministic tie-break ("first-encountered value in a canonical (e.g.,
lexicographic) ordering"): numerics before strings before booleans,
numerics by value, strings lexicographically, booleans false-first. -/
def sleB : Scalar → Scalar → Bool
  | .num p, .num q => !decide (q < p)
  | .num _, .str _ => true
  | .num _, .bool _ => true
  | .str _, .num _ => false
  | .str s, .str t => clLe s.data t.data
  | .str _, .bool _ => true
  | .bool _, .num _ => false
  | .bool _, .str _ => false
  | .bool x, .bool y => !x || y

def sle (a b : Scalar) : Prop := sleB a b = true

instance : DecidableRel sle := fun a b => inferInstanceAs (Decidable (sleB a b = true))

instance : IsTrans Scalar sle := ⟨by
  intro a b c hab hbc
  cases a <;> cases b <;> cases c <;> simp_all [sle, sleB, not_lt] <;>
    first
      | linarith
      | exact clLe_trans _ _ _ hab hbc
      | (rcases hab with h | h <;> rcases hbc with h' | h' <;> simp_all)⟩

instance : IsAntisymm Scalar sle := ⟨by
  intro a b hab hba
  cases a with
  | num p =>
      cases b with
      | num q =>
          simp_all only [sle, sleB, Bool.not_eq_true', decide_eq_false_iff_not, not_lt,
            Scalar.num.injEq]
          linarith
      | str t => simp_all [sle, sleB]
      | bool y => simp_all [sle, sleB]
  | str s =>
      cases b with
      | num q => simp_all [sle, sleB]
      | str t =>
          simp only [sle, sleB] at hab hba
          have hd := clLe_antisymm _ _ hab hba
          cases s
          cases t
          exact congrArg (fun l => Scalar.str { data := l }) hd
      | bool y => simp_all [sle, sleB]
  | bool x =>
      cases b with
      | num q => simp_all [sle, sleB]
      | str t => simp_all [sle, sleB]
      | bool y => cases x <;> cases y <;> simp_all [sle, sleB]⟩

instance : IsTotal Scalar sle := ⟨by
  intro a b
  cases a <;> cases b <;> simp [sle, sleB, not_lt] <;>
    first
      | exact le_total _ _
      | exact clLe_total _ _
      | (rename_i x y
         cases x <;> cases y <;> simp)⟩

theorem dedupSort_wellDef (l₁ l₂ : List Scalar) (h : List.Perm l₁ l₂) :
    l₁.dedup.insertionSort sle = l₂.dedup.insertionSort sle :=
  List.eq_of_perm_of_sorted
    (((List.perm_insertionSort sle l₁.dedup).trans h.dedup).trans
      (List.perm_insertionSort sle l₂.dedup).symm)
    (l₁.dedup.sorted_insertionSort sle) (l₂.dedup.sorted_insertionSort sle)

/-- The distinct observed values of a statistic, in canonical ascending
order (the deterministic enumeration order mandated by the spec). -/
def sortedDistinct (m : Multiset Scalar) : List Scalar :=
  Quot.liftOn m (fun l => l.dedup.insertionSort sle) dedupSort_wellDef

/-- Frequency order used to rank categories: higher count first, ties broken
by the canonical order (deterministic, per the spec's tie-break rule). -/
def byFreq (m : Multiset Scalar) (a b : Scalar) : Prop :=
  m.count b < m.count a ∨ (m.count a = m.count b ∧ sle a b)

instance (m : Multiset Scalar) : DecidableRel (byFreq m) := fun a b =>
  inferInstanceAs (Decidable (m.count b < m.count a ∨ (m.count a = m.count b ∧ sle a b)))

/-- Distinct observed values by descending frequency, ties canonical. -/
def byFreqSorted (m : Multiset Scalar) : List Scalar :=
  (sortedDistinct m).insertionSort (byFreq m)

/-- Modelled from the spec: mean derivation from the merged statistic
("running sum+count for mean ... sums and counts summed, then mean
derived"); a column with no observed numeric value fails with
`InsufficientDataError`. -/
def meanOfStats (c : Col) (m : Multiset Scalar) : Except Err Scalar :=
  let qs : Multiset ℚ := m.filterMap (fun s => match s with | .num q => some q | _ => none)
  if qs.card = 0 then .error (.insufficientDataError c)
  else .ok (.num (qs.sum / qs.card))

/-- Modelled from the spec: most-frequent derivation with the deterministic
tie-break ("ties in most-frequent resolved by first-encountered value in a
canonical (e.g., lexicographic) ordering"). -/
def mostFreqOfStats (c : Col) (m : Multiset Scalar) : Except Err Scalar :=
  match byFreqSorted m with
  | [] => .error (.insufficientDataError c)
  | v :: _ => .ok v

/-- Modelled from the spec: the categories retained by the encoder under a
cardinality cap ("capped at a configured maximum cardinality per column;
categories beyond the cap (by ascending frequency) are folded into a
dedicated \"other\" index"). -/
def topK (k : Nat) (m : Multiset Scalar) : List Scalar :=
  (byFreqSorted m).take k

/-- Modelled from the spec: fitting one transform against a dataset
(`fit(sample_or_distributed_stats) -> FittedState, fails with SchemaError if
required input columns are absent`); the stateless mappers have no state to
fit. -/
def fitTransform (t : Transform) (df : DataFrame) : Except Err Transform :=
  match t with
  | .imputer cs strat _ => do
      let f ← mapME (fun c =>
        if c ∈ df.cols then do
          let s ← (match strat with
            | .mean => meanOfStats c (colStats (colValues df c))
            | .mostFrequent => mostFreqOfStats c (colStats (colValues df c)))
          .ok (c, s)
        else .error (.schemaError c)) cs
      .ok (.imputer cs strat (some f))
  | .oneHot caps _ => do
      let f ← mapME (fun p =>
        if p.1 ∈ df.cols then
          let m := colStats (colValues df p.1)
          .ok (p.1, match p.2 with
            | some k => topK k m
            | none => byFreqSorted m)
        else .error (.schemaError p.1)) caps
      .ok (.oneHot caps (some f))
  | .mapYear => .ok .mapYear
  | .mapConcat => .ok .mapConcat

/-- Modelled from the spec: pipeline fit, "fit each unfit Transform in
order, threading forward the output schema of each stage as the input schema
of the next" (as `Chain` fit-then-transforms each stage). -/
def fitPipeline : Pipeline → DataFrame → Except Err Pipeline
  | [], _ => .ok []
  | t :: ts, df => do
      let t' ← fitTransform t df
      let df' ← applyTransform t' df
      let ts' ← fitPipeline ts df'
      .ok (t' :: ts')

/-- A transform is fit when its `FittedState` is present (stateless mappers
are always fit). -/
def Transform.isFit : Transform → Bool
  | .imputer _ _ fitted => fitted.isSome
  | .oneHot _ fitted => fitted.isSome
  | .mapYear => true
  | .mapConcat => true

def Pipeline.isFit (p : Pipeline) : Bool := p.all Transform.isFit

/-! ### Reduction trees (distributed fit, spec §4.3) -/

/-- A reduction tree over dataset partitions: leaves hold one partition's
column values, inner nodes merge the partial statistics of their children. -/
inductive RTree
  | leaf (part : List Value)
  | node (l r : RTree)

/-- The dataset a reduction tree ranges over, partition by partition. -/
def RTree.data : RTree → List Value
  | .leaf part => part
  | .node l r => l.data ++ r.data

/-- The distributed reduction: each worker computes its partition's partial
statistic, inner nodes merge pairwise. -/
def RTree.reduce : RTree → Multiset Scalar
  | .leaf part => colStats part
  | .node l r => mergeStats l.reduce r.reduce

/-! ### Notebook-level data preparation (`get_data`, `split_data`) -/

/-- `_data["tips"] / _data["fare"] > 0.2` on one row, with float64 division
semantics at a zero divisor: `t/0` is `+inf` for `t > 0` (so the comparison
holds), `-inf` for `t < 0`, and `NaN` for `t = 0` (`NaN` comparisons are
false); away from zero the exact rational quotient is compared. -/
def divGtFifth (t f : ℚ) : Bool :=
  if f = 0 then decide (0 < t) else decide ((1 : ℚ)/5 < t / f)

/-- The row label `tips / fare > 0.2`; any non-numeric operand (`NaN`)
compares false, as in pandas. -/
def bigTip : Value → Value → Value
  | .num t, .num f => .bool (divGtFifth t f)
  | _, _ => .bool false

/-- Schema of the Chicago-taxi CSV read by `get_data`. -/
def taxiSchema : List Col :=
  ["pickup_community_area", "fare", "trip_start_month", "trip_start_hour",
   "trip_start_day", "trip_start_timestamp", "pickup_latitude",
   "pickup_longitude", "dropoff_latitude", "dropoff_longitude", "trip_miles",
   "pickup_census_tract", "dropoff_census_tract", "payment_type", "company",
   "trip_seconds", "dropoff_community_area", "tips"]

/-- The columns `get_data` drops "for the sake of simplicity". -/
def droppedCols : List Col :=
  ["tips", "fare", "dropoff_latitude", "dropoff_longitude",
   "pickup_latitude", "pickup_longitude", "pickup_census_tract"]

/-- `_data[LABEL] = _data["tips"] / _data["fare"] > 0.2` (new column appended
on the right, as pandas does). -/
def addLabel (df : DataFrame) : DataFrame :=
  ⟨df.cols ++ [LABEL],
   df.rows.map (fun r => r ++ [(LABEL, bigTip (cellAt r "tips") (cellAt r "fare"))])⟩

/-- `DataFrame.drop(cs, axis=1)`. -/
def dropColumns (cs : List Col) (df : DataFrame) : DataFrame :=
  ⟨df.cols.filter (fun c => decide (c ∉ cs)),
   df.rows.map (fun r => r.filter (fun p => decide (p.1 ∉ cs)))⟩

/-- Embeds `get_data`: attach the `is_big_tip` label, then drop the unused
columns. -/
def getData (df : DataFrame) : DataFrame := dropColumns droppedCols (addLabel df)

/-- Row selection of the external `train_test_split` (which only picks row
indices; the stratified choice itself is external to the pipeline). -/
def selectRows (df : DataFrame) (idxs : List Nat) : DataFrame :=
  ⟨df.cols, idxs.filterMap (fun i => df.rows.get? i)⟩

/-- Embeds `split_data`'s test side: `_test_df = test_data.drop([LABEL], axis=1)`. -/
def splitTestDf (df : DataFrame) (testIdxs : List Nat) : DataFrame :=
  dropColumns [LABEL] (selectRows df testIdxs)

/-! ### The concrete preprocessor of `get_preprocessor` -/

def imp1Cols : List Col := ["dropoff_census_tract"]

def imp2Cols : List Col := ["pickup_community_area", "dropoff_community_area"]

def imp3Cols : List Col := ["payment_type"]

def imp4Cols : List Col := ["company"]

def imp5Cols : List Col := ["trip_start_timestamp", "trip_miles", "trip_seconds"]

def oheCaps : List (Col × Option Nat) :=
  [("trip_start_hour", none), ("trip_start_day", none),
   ("trip_start_month", none), ("dropoff_census_tract", some 25),
   ("pickup_community_area", some 20), ("dropoff_community_area", some 20),
   ("payment_type", some 2), ("company", some 7)]

/-- Embeds `get_preprocessor`: the unfit chain of five imputers, the one-hot
encoder and the two batch mappers. -/
def getPreprocessor : Pipeline :=
  [.imputer imp1Cols .mostFrequent none,
   .imputer imp2Cols .mostFrequent none,
   .imputer imp3Cols .mostFrequent none,
   .imputer imp4Cols .mostFrequent none,
   .imputer imp5Cols .mean none,
   .oneHot oheCaps none,
   .mapYear, .mapConcat]

/-- The chain of `get_preprocessor` with an arbitrary fitted state
(`g` = fill value per imputed column, `h` = retained categories per encoded
column), standing for any pipeline produced by fitting the notebook's
preprocessor. -/
def fittedChain (g : Col → Scalar) (h : Col → List Scalar) : Pipeline :=
  [.imputer imp1Cols .mostFrequent (some (imp1Cols.map (fun c => (c, g c)))),
   .imputer imp2Cols .mostFrequent (some (imp2Cols.map (fun c => (c, g c)))),
   .imputer imp3Cols .mostFrequent (some (imp3Cols.map (fun c => (c, g c)))),
   .imputer imp4Cols .mostFrequent (some (imp4Cols.map (fun c => (c, g c)))),
   .imputer imp5Cols .mean (some (imp5Cols.map (fun c => (c, g c)))),
   .oneHot oheCaps (some (oheCaps.map (fun p => (p.1, h p.1)))),
   .mapYear, .mapConcat]

/-- Schema of the training frame (`get_data` output): the taxi columns that
survive the drop, plus the label. -/
def trainSchema : List Col :=
  ["pickup_community_area", "trip_start_month", "trip_start_hour",
   "trip_start_day", "trip_start_timestamp", "trip_miles",
   "dropoff_census_tract", "payment_type", "company", "trip_seconds",
   "dropoff_community_area", LABEL]

/-- The feature source columns of the pipeline (every column some transform
reads, other than the label). -/
def featureSourceCols : List Col :=
  ["pickup_community_area", "trip_start_month", "trip_start_hour",
   "trip_start_day", "trip_start_timestamp", "trip_miles",
   "dropoff_census_tract", "payment_type", "company", "trip_seconds",
   "dropoff_community_area"]

/-! ### The inference service (spec §4.5), modelled from the spec -/

/-- Client-visible error classes of the service: `client` is the
4xx-equivalent, `server` the 5xx-equivalent. -/
inductive ServeErr
  | client (e : Err)
  | server
deriving DecidableEq, Repr

/-- Modelled from the spec: the per-request path of the `InferenceService`
("decode payload → build a single-Record Batch → `Pipeline.apply` → feed
resulting fixed-width vector to the model → encode prediction"; a pipeline
failure is a client-visible 4xx-equivalent error, a model fault a
5xx-equivalent one).  The service implementation (`PredictorDeployment`)
lives in the Ray library, outside this repository. -/
def serveRequest (model : List (Option ℚ) → Except Unit ℚ) (p : Pipeline)
    (df : DataFrame) : Except ServeErr ℚ :=
  match applyPipeline p df with
  | .error e => .error (.client e)
  | .ok out =>
      match cellAt (out.rows.getD 0 []) "input" with
      | .vec xs =>
          match model xs with
          | .ok y => .ok y
          | .error _ => .error .server
      | _ => .error (.client .conversionError)

/-! ### Artifact serialization (spec §4.4, §6), modelled from the spec

The checkpoint built by `train_loop_per_worker` and loaded by `serve_model`
lives in the Ray library, outside this repository; the layer is modelled
from the spec's persisted-state layout: a format-version header, then the
pipeline section enumerating Transforms in apply order with kind tag, column
lists and FittedState payload, then the weights section.  Bytes are
abstracted to a token stream. -/

/-- One token of the serialized artifact stream. -/
inductive Tok
  | n (k : Nat)
  | s (t : String)
  | q (r : ℚ)
  | b (x : Bool)
deriving DecidableEq, Repr

/-- Artifact-loading errors (spec §4.4). -/
inductive SerErr
  | versionMismatchError
  | corruptArtifactError
deriving DecidableEq, Repr

def encList (f : α → List Tok) (xs : List α) : List Tok :=
  .n xs.length :: xs.flatMap f

def encOpt (f : α → List Tok) : Option α → List Tok
  | none => [.b false]
  | some a => .b true :: f a

def encScalar : Scalar → List Tok
  | .num q => [.n 0, .q q]
  | .str s => [.n 1, .s s]
  | .bool b => [.n 2, .b b]

def encStrat : Strategy → List Tok
  | .mean => [.n 0]
  | .mostFrequent => [.n 1]

def encCol (c : Col) : List Tok := [.s c]

def encNat (k : Nat) : List Tok := [.n k]

def encCS (p : Col × Scalar) : List Tok := .s p.1 :: encScalar p.2

def encCap (p : Col × Option Nat) : List Tok := .s p.1 :: encOpt encNat p.2

def encRet (p : Col × List Scalar) : List Tok := .s p.1 :: encList encScalar p.2

/-- Pipeline-section entry: kind tag, declared columns, FittedState. -/
def encTransform : Transform → List Tok
  | .imputer cs strat fitted =>
      .n 0 :: (encList encCol cs ++ encStrat strat ++ encOpt (encList encCS) fitted)
  | .oneHot caps fitted =>
      .n 1 :: (encList encCap caps ++ encOpt (encList encRet) fitted)
  | .mapYear => [.n 2]
  | .mapConcat => [.n 3]

/-- The supported artifact format version. -/
def formatVersion : Nat := 1

/-- Modelled from the spec: `serialize(Pipeline, weights) -> bytes` with the
layout `[format_version][pipeline_section][weights_section]`. -/
def serialize (p : Pipeline) (w : List Nat) : List Tok :=
  .n formatVersion :: (encList encTransform p ++ encList encNat w)

def parseNat : List Tok → Option (Nat × List Tok)
  | .n k :: ts => some (k, ts)
  | _ => none

def parseCol : List Tok → Option (Col × List Tok)
  | .s c :: ts => some (c, ts)
  | _ => none

def parseCount (f : List Tok → Option (α × List Tok)) :
    Nat → List Tok → Option (List α × List Tok)
  | 0, ts => some ([], ts)
  | k + 1, ts => do
      let (a, ts₁) ← f ts
      let (as, ts₂) ← parseCount f k ts₁
      some (a :: as, ts₂)

def parseListT (f : List Tok → Option (α × List Tok)) (ts : List Tok) :
    Option (List α × List Tok) := do
  let (k, ts₁) ← parseNat ts
  parseCount f k ts₁

def parseOpt (f : List Tok → Option (α × List Tok)) :
    List Tok → Option (Option α × List Tok)
  | .b false :: ts => some (none, ts)
  | .b true :: ts => do
      let (a, ts₁) ← f ts
      some (some a, ts₁)
  | _ => none

def parseScalar : List Tok → Option (Scalar × List Tok)
  | .n 0 :: .q q :: ts => some (.num q, ts)
  | .n 1 :: .s s :: ts => some (.str s, ts)
  | .n 2 :: .b b :: ts => some (.bool b, ts)
  | _ => none

def parseStrat : List Tok → Option (Strategy × List Tok)
  | .n 0 :: ts => some (.mean, ts)
  | .n 1 :: ts => some (.mostFrequent, ts)
  | _ => none

def parseCS (ts : List Tok) : Option ((Col × Scalar) × List Tok) := do
  let (c, ts₁) ← parseCol ts
  let (s, ts₂) ← parseScalar ts₁
  some ((c, s), ts₂)

def parseCap (ts : List Tok) : Option ((Col × Option Nat) × List Tok) := do
  let (c, ts₁) ← parseCol ts
  let (k, ts₂) ← parseOpt parseNat ts₁
  some ((c, k), ts₂)

def parseRet (ts : List Tok) : Option ((Col × List Scalar) × List Tok) := do
  let (c, ts₁) ← parseCol ts
  let (r, ts₂) ← parseListT parseScalar ts₁
  some ((c, r), ts₂)

def parseTransform : List Tok → Option (Transform × List Tok)
  | .n 0 :: ts => do
      let (cs, ts₁) ← parseListT parseCol ts
      let (st, ts₂) ← parseStrat ts₁
      let (f, ts₃) ← parseOpt (parseListT parseCS) ts₂
      some (.imputer cs st f, ts₃)
  | .n 1 :: ts => do
      let (caps, ts₁) ← parseListT parseCap ts
      let (f, ts₂) ← parseOpt (parseListT parseRet) ts₁
      some (.oneHot caps f, ts₂)
  | .n 2 :: ts => some (.mapYear, ts)
  | .n 3 :: ts => some (.mapConcat, ts)
  | _ => none

/-- Modelled from the spec: `deserialize(bytes) -> (Pipeline, weights)`,
failing with `VersionMismatchError` on an unsupported format version and
with `CorruptArtifactError` on structural validation failure. -/
def deserialize : List Tok → Except SerErr (Pipeline × List Nat)
  | .n v :: ts =>
      if v = formatVersion then
        match (do
          let (p, ts₁) ← parseListT parseTransform ts
          let (w, ts₂) ← parseListT parseNat ts₁
          if ts₂.isEmpty then some (p, w) else none) with
        | some r => .ok r
        | none => .error .corruptArtifactError
      else .error .versionMismatchError
  | _ => .error .corruptArtifactError

/-! ### Concrete example data for evaluating the pipeline -/

/-- An arbitrary concrete fill-value assignment. -/
def exG : Col → Scalar := fun _ => .num 0

/-- An arbitrary concrete retained-category assignment. -/
def exH : Col → List Scalar := fun _ => [.str "x"]

/-- A concrete fit pipeline with the notebook's chain structure. -/
def exampleFit : Pipeline := fittedChain exG exH

def exampleRow0 : Row := trainSchema.map (fun c => (c, Value.num 1))

def exampleRow1 : Row :=
  trainSchema.map (fun c => (c, if c = "trip_miles" then Value.missing else Value.num 2))

/-- A concrete two-record training-schema batch. -/
def exampleDF : DataFrame := ⟨trainSchema, [exampleRow0, exampleRow1]⟩

/-- The pipeline output on `exampleDF` (defined by evaluation). -/
def exampleOut : DataFrame :=
  match applyPipeline exampleFit exampleDF with
  | .ok o => o
  | .error _ => ⟨[], []⟩

/-- The schema produced by the fit chain on the training schema. -/
def exampleFinalCols : List Col :=
  match pipeCols exampleFit trainSchema with
  | .ok c => c
  | .error _ => []

/-- The C3 scenario statistic: `payment_type` observed as
`{cash: 100, card: 80, check: 1}`. -/
def c3Stats : Multiset Scalar :=
  ↑(List.replicate 100 (Scalar.str "cash") ++ List.replicate 80 (Scalar.str "card")
      ++ [Scalar.str "check"])

/-- The C4 scenario frame: `trip_miles = [2, missing, 4]` (with values for
the other two mean-imputed columns). -/
def c4DF : DataFrame :=
  ⟨imp5Cols,
   [[("trip_start_timestamp", .num 0), ("trip_miles", .num 2), ("trip_seconds", .num 1)],
    [("trip_start_timestamp", .num 0), ("trip_miles", .missing), ("trip_seconds", .num 1)],
    [("trip_start_timestamp", .num 0), ("trip_miles", .num 4), ("trip_seconds", .num 1)]]⟩

/-- The fitted state the C4 scenario produces. -/
def c4Fitted : List (Col × Scalar) :=
  [("trip_start_timestamp", .num 0), ("trip_miles", .num 3), ("trip_seconds", .num 1)]

/-- A width-2 batch for the packing transform. -/
def c8Batch : DataFrame :=
  ⟨["a", "b", LABEL], [[("a", .num 1), ("b", .num 2), (LABEL, .bool true)]]⟩

/-! ### Round-trip lemmas for the artifact layer -/

theorem parseNat_enc (k : Nat) (rest : List Tok) :
    parseNat (encNat k ++ rest) = some (k, rest) := rfl

theorem parseCol_enc (c : Col) (rest : List Tok) :
    parseCol (encCol c ++ rest) = some (c, rest) := rfl

theorem parseCount_enc (f : List Tok → Option (α × List Tok)) (g : α → List Tok)
    (hf : ∀ x rest, f (g x ++ rest) = some (x, rest)) :
    ∀ (xs : List α) (rest : List Tok),
      parseCount f xs.length (xs.flatMap g ++ rest) = some (xs, rest)
  | [], rest => by simp [parseCount]
  | x :: xs, rest => by
      simp [parseCount, List.append_assoc, hf, parseCount_enc f g hf xs rest]

theorem parseListT_enc (f : List Tok → Option (α × List Tok)) (g : α → List Tok)
    (hf : ∀ x rest, f (g x ++ rest) = some (x, rest)) (xs : List α) (rest : List Tok) :
    parseListT f (encList g xs ++ rest) = some (xs, rest) := by
  simp [parseListT, encList, parseNat, parseCount_enc f g hf]

theorem parseOpt_enc (f : List Tok → Option (α × List Tok)) (g : α → List Tok)
    (hf : ∀ x rest, f (g x ++ rest) = some (x, rest)) (o : Option α) (rest : List Tok) :
    parseOpt f (encOpt g o ++ rest) = some (o, rest) := by
  cases o <;> simp [parseOpt, encOpt, hf]

theorem parseScalar_enc (s : Scalar) (rest : List Tok) :
    parseScalar (encScalar s ++ rest) = some (s, rest) := by
  cases s <;> rfl

theorem parseStrat_enc (s : Strategy) (rest : List Tok) :
    parseStrat (encStrat s ++ rest) = some (s, rest) := by
  cases s <;> rfl

theorem parseCS_enc (p : Col × Scalar) (rest : List Tok) :
    parseCS (encCS p ++ rest) = some (p, rest) := by
  simp [parseCS, encCS, parseCol, parseScalar_enc]

theorem parseCap_enc (p : Col × Option Nat) (rest : List Tok) :
    parseCap (encCap p ++ rest) = some (p, rest) := by
  simp [parseCap, encCap, parseCol, parseOpt_enc parseNat encNat parseNat_enc]

theorem parseRet_enc (p : Col × List Scalar) (rest : List Tok) :
    parseRet (encRet p ++ rest) = some (p, rest) := by
  simp [parseRet, encRet, parseCol, parseListT_enc parseScalar encScalar parseScalar_enc]

theorem parseTransform_enc (t : Transform) (rest : List Tok) :
    parseTransform (encTransform t ++ rest) = some (t, rest) := by
  cases t with
  | imputer cs strat fitted =>
      simp [encTransform, parseTransform, List.append_assoc,
        parseListT_enc parseCol encCol parseCol_enc, parseStrat_enc,
        parseOpt_enc (parseListT parseCS) (encList encCS)
          (parseListT_enc parseCS encCS parseCS_enc)]
  | oneHot caps fitted =>
      simp [encTransform, parseTransform, List.append_assoc,
        parseListT_enc parseCap encCap parseCap_enc,
        parseOpt_enc (parseListT parseRet) (encList encRet)
          (parseListT_enc parseRet encRet parseRet_enc)]
  | mapYear => rfl
  | mapConcat => rfl

theorem deserialize_serialize (p : Pipeline) (w : List Nat) :
    deserialize (serialize p w) = .ok (p, w) := by
  have h₁ := parseListT_enc parseTransform encTransform parseTransform_enc p
    (encList encNat w)
  have h₂ := parseListT_enc parseNat encNat parseNat_enc w ([] : List Tok)
  simp only [List.append_nil] at h₂
  simp [serialize, deserialize, formatVersion, h₁, h₂]

/-! ### Generic pipeline lemmas -/

@[simp] theorem exc_bind_ok (a : α) (f : α → Except ε β) :
    (Except.ok a >>= f) = f a := rfl

@[simp] theorem exc_bind_error (e : ε) (f : α → Except ε β) :
    ((Except.error e : Except ε α) >>= f) = Except.error e := rfl

theorem mapME_ok_length {f : α → Except Err β} :
    ∀ {l : List α} {l' : List β}, mapME f l = .ok l' → l'.length = l.length := by
  intro l
  induction l with
  | nil => intro l' h; simp [mapME] at h; simp [← h]
  | cons a as ih =>
      intro l' h
      simp only [mapME] at h
      cases hfa : f a with
      | error e => simp [hfa] at h
      | ok b =>
          cases hma : mapME f as with
          | error e => simp [hfa, hma] at h
          | ok bs =>
              simp [hfa, hma] at h
              simp [← h, ih hma]

theorem mapME_ok_get {f : α → Except Err β} (da : α) (db : β) :
    ∀ {l : List α} {l' : List β}, mapME f l = .ok l' →
      ∀ i, i < l.length → f (l.getD i da) = .ok (l'.getD i db) := by
  intro l
  induction l with
  | nil => intro l' _ i hi; simp at hi
  | cons a as ih =>
      intro l' h i hi
      simp only [mapME] at h
      cases hfa : f a with
      | error e => simp [hfa] at h
      | ok b =>
          cases hma : mapME f as with
          | error e => simp [hfa, hma] at h
          | ok bs =>
              simp [hfa, hma] at h
              cases i with
              | zero => simpa [← h] using hfa
              | succ j =>
                  have := ih hma j (by simpa using Nat.lt_of_succ_lt_succ hi)
                  simpa [← h] using this

theorem mapME_singleton {f : α → Except Err β} {a : α} {b : β} (h : f a = .ok b) :
    mapME f [a] = .ok [b] := by
  simp [mapME, h]

theorem applyTransform_ok_parts {t : Transform} {df : DataFrame} {out : DataFrame}
    (h : applyTransform t df = .ok out) :
    tCols t df.cols = .ok out.cols ∧ mapME (rowFun t df.cols) df.rows = .ok out.rows := by
  simp only [applyTransform] at h
  cases htc : tCols t df.cols with
  | error e => simp [htc] at h
  | ok cols' =>
      cases hmr : mapME (rowFun t df.cols) df.rows with
      | error e => simp [htc, hmr] at h
      | ok rows' =>
          simp [htc, hmr] at h
          simp [htc, hmr, ← h]

theorem applyTransform_ok_length {t : Transform} {df out : DataFrame}
    (h : applyTransform t df = .ok out) : out.rows.length = df.rows.length :=
  mapME_ok_length (applyTransform_ok_parts h).2

/-- Row-locality of one transform: the row a record receives in a batch is
exactly what it receives alone (same schema) in a single-record batch. -/
theorem applyTransform_single {t : Transform} {df out : DataFrame} {i : Nat}
    (h : applyTransform t df = .ok out) (hi : i < df.rows.length) :
    applyTransform t ⟨df.cols, [df.rows.getD i []]⟩ = .ok ⟨out.cols, [out.rows.getD i []]⟩ := by
  obtain ⟨htc, hmr⟩ := applyTransform_ok_parts h
  have hrow := mapME_ok_get ([] : Row) ([] : Row) hmr i hi
  simp only [applyTransform, htc, exc_bind_ok, mapME_singleton hrow]

theorem applyPipeline_single :
    ∀ (p : Pipeline) {df out : DataFrame} {i : Nat},
      applyPipeline p df = .ok out → i < df.rows.length →
      applyPipeline p ⟨df.cols, [df.rows.getD i []]⟩ = .ok ⟨out.cols, [out.rows.getD i []]⟩ := by
  intro p
  induction p with
  | nil =>
      intro df out i h _
      simp [applyPipeline] at h
      simp [applyPipeline, h]
  | cons t ts ih =>
      intro df out i h hi
      simp only [applyPipeline] at h
      cases hat : applyTransform t df with
      | error e => simp [hat] at h
      | ok mid =>
          simp only [hat, exc_bind_ok] at h
          have hi' : i < mid.rows.length := by
            rw [applyTransform_ok_length hat]; exact hi
          have h₁ := applyTransform_single hat hi
          have h₂ := ih h hi'
          simp only [applyPipeline, h₁, exc_bind_ok, h₂]

/-- A zero-row batch passes every transform whose schema check passes, and
comes out with zero rows. -/
theorem applyTransform_empty {t : Transform} {cols cols' : List Col}
    (h : tCols t cols = .ok cols') :
    applyTransform t ⟨cols, []⟩ = .ok ⟨cols', []⟩ := by
  simp [applyTransform, h, mapME]

theorem applyPipeline_empty :
    ∀ (p : Pipeline) {cols cols' : List Col}, pipeCols p cols = .ok cols' →
      applyPipeline p ⟨cols, []⟩ = .ok ⟨cols', []⟩ := by
  intro p
  induction p with
  | nil =>
      intro cols cols' h
      simp [pipeCols] at h
      simp [applyPipeline, h]
  | cons t ts ih =>
      intro cols cols' h
      simp only [pipeCols] at h
      cases htc : tCols t cols with
      | error e => simp [htc] at h
      | ok mid =>
          simp only [htc, exc_bind_ok] at h
          simp [applyPipeline, applyTransform_empty htc, ih h]

/-! ### Statistics lemmas (distributed fit) -/

theorem colStats_append (l₁ l₂ : List Value) :
    colStats (l₁ ++ l₂) = mergeStats (colStats l₁) (colStats l₂) := by
  simp [colStats, mergeStats, List.filterMap_append]

theorem colStats_perm {l₁ l₂ : List Value} (h : List.Perm l₁ l₂) :
    colStats l₁ = colStats l₂ :=
  Quot.sound (h.filterMap Value.scalar?)

theorem RTree.reduce_eq_data : ∀ t : RTree, t.reduce = colStats t.data
  | .leaf part => rfl
  | .node l r => by
      simp [RTree.reduce, RTree.data, colStats_append,
        RTree.reduce_eq_data l, RTree.reduce_eq_data r]

theorem mapME_pure (g : α → β) :
    ∀ l : List α, mapME (fun a => (.ok (g a) : Except Err β)) l = .ok (l.map g)
  | [] => rfl
  | a :: as => by simp [mapME, mapME_pure g as]

theorem applyPipeline_ok_cols :
    ∀ (p : Pipeline) {df out : DataFrame},
      applyPipeline p df = .ok out → pipeCols p df.cols = .ok out.cols := by
  intro p
  induction p with
  | nil =>
      intro df out h
      simp [applyPipeline] at h
      simp [pipeCols, h]
  | cons t ts ih =>
      intro df out h
      simp only [applyPipeline] at h
      cases hat : applyTransform t df with
      | error e => simp [hat] at h
      | ok mid =>
          simp only [hat, exc_bind_ok] at h
          have hp := (applyTransform_ok_parts hat).1
          simp [pipeCols, hp, ih h]

/-! ### Claim theorems -/

/-- C5: For every dataset and every partitioning of it across workers,
fitting yields the same FittedState regardless of the number of partitions
and of the shape or order of the reduction tree, because the merge of
per-worker partial statistics is associative and commutative: merge is
associative and commutative, and any reduction tree over any partitioning
of a dataset reduces to the statistic of the whole dataset, so the mean,
most-frequent and retained-category derivations all agree with a
single-node fit. -/
theorem fit_merge_assoc_comm_partition_invariant :
    (∀ a b c : Multiset Scalar,
        mergeStats (mergeStats a b) c = mergeStats a (mergeStats b c)) ∧
    (∀ a b : Multiset Scalar, mergeStats a b = mergeStats b a) ∧
    (∀ (t : RTree) (D : List Value), List.Perm t.data D →
        t.reduce = colStats D ∧
        (∀ c, meanOfStats c t.reduce = meanOfStats c (colStats D)) ∧
        (∀ c, mostFreqOfStats c t.reduce = mostFreqOfStats c (colStats D)) ∧
        (∀ k, topK k t.reduce = topK k (colStats D))) := by
  refine ⟨fun a b c => add_assoc a b c, fun a b => add_comm a b, fun t D hperm => ?_⟩
  have h : t.reduce = colStats D := (RTree.reduce_eq_data t).trans (colStats_perm hperm)
  exact ⟨h, fun c => by rw [h], fun c => by rw [h], fun k => by rw [h]⟩

/-- Witness for C5 at a concrete two-partition tree. -/
theorem fit_merge_assoc_comm_partition_invariant_witness :
    (RTree.node (.leaf [Value.num 1]) (.leaf [Value.num 2, Value.missing])).reduce
      = colStats [Value.missing, Value.num 2, Value.num 1] :=
  ((fit_merge_assoc_comm_partition_invariant.2.2
    (RTree.node (.leaf [Value.num 1]) (.leaf [Value.num 2, Value.missing]))
    [Value.missing, Value.num 2, Value.num 1] (by decide)).1)

/-- C6: applying a fit pipeline to a zero-length batch returns a zero-length
batch: every transform whose schema check passes maps zero rows to zero rows
(no row action runs, nothing fails), and so does the whole chain. -/
theorem empty_batch_noop :
    (∀ (t : Transform) (cols cols' : List Col), tCols t cols = .ok cols' →
        applyTransform t ⟨cols, []⟩ = .ok ⟨cols', []⟩) ∧
    (∀ (p : Pipeline) (cols cols' : List Col), pipeCols p cols = .ok cols' →
        applyPipeline p ⟨cols, []⟩ = .ok ⟨cols', []⟩) :=
  ⟨fun _ _ _ => applyTransform_empty, fun p _ _ => applyPipeline_empty p⟩

/-- Witness for C6: the concrete fit chain maps the empty training-schema
batch to the empty packed batch. -/
theorem empty_batch_noop_witness :
    applyPipeline exampleFit ⟨trainSchema, []⟩ = .ok ⟨exampleFinalCols, []⟩ :=
  empty_batch_noop.2 exampleFit trainSchema exampleFinalCols (by decide)

/-- C2: `apply` on a fit pipeline is deterministic (it is a pure function:
repeated calls give syntactically the same result), and applying the
pipeline to the single-record batch holding row `i` of a batch it accepts
produces exactly row `i` of the full batch's output — no dependence on batch
size or position. -/
theorem apply_deterministic_and_rowwise :
    ∀ (p : Pipeline) (df out : DataFrame) (i : Nat),
      applyPipeline p df = applyPipeline p df ∧
      (applyPipeline p df = .ok out → i < df.rows.length →
        applyPipeline p ⟨df.cols, [df.rows.getD i []]⟩
          = .ok ⟨out.cols, [out.rows.getD i []]⟩) :=
  fun p _ _ _ => ⟨rfl, fun h hi => applyPipeline_single p h hi⟩

/-- Witness for C2: record 1 of the concrete two-record batch receives, when
served alone, exactly the row it receives inside the batch. -/
theorem apply_deterministic_and_rowwise_witness :
    applyPipeline exampleFit ⟨exampleDF.cols, [exampleDF.rows.getD 1 []]⟩
      = .ok ⟨exampleOut.cols, [exampleOut.rows.getD 1 []]⟩ :=
  (apply_deterministic_and_rowwise exampleFit exampleDF exampleOut 1).2
    (by decide) (by decide)

/-- C1: for every fit pipeline and weights, deserializing the serialized
artifact succeeds, reconstructs exactly the original pipeline and weights,
and therefore yields a pipeline whose `apply` output is identical to the
original's on every batch. -/
theorem artifact_roundtrip_preserves_apply :
    ∀ (p : Pipeline) (w : List Nat), p.isFit = true →
      deserialize (serialize p w) = .ok (p, w) ∧
      (∀ (p' : Pipeline) (w' : List Nat),
        deserialize (serialize p w) = .ok (p', w') →
        ∀ df, applyPipeline p' df = applyPipeline p df) := by
  intro p w _
  refine ⟨deserialize_serialize p w, fun p' w' h df => ?_⟩
  rw [deserialize_serialize p w] at h
  cases h
  rfl

/-- Witness for C1 at the concrete fit chain. -/
theorem artifact_roundtrip_preserves_apply_witness :
    deserialize (serialize exampleFit [5, 7]) = .ok (exampleFit, [5, 7]) :=
  (artifact_roundtrip_preserves_apply exampleFit [5, 7] (by decide)).1

/-- C4: the mean-strategy imputer's fit computes per target column the
arithmetic mean of the observed non-missing numeric values, apply replaces
each missing value with the fitted mean and passes every non-missing value
through unchanged; concretely, fitting `imputer5` on
`trip_miles = [2, missing, 4]` yields `3`, and applying to a record with
`trip_miles` missing fills in `3`. -/
theorem imputer_mean_fit_and_apply :
    (∀ (f : List (Col × Scalar)) (c : Col) (v : Value),
        v ≠ .missing → impCell f c v = v) ∧
    meanOfStats "trip_miles" (colStats [Value.num 2, Value.missing, Value.num 4])
      = .ok (.num 3) ∧
    fitTransform (.imputer imp5Cols .mean none) c4DF
      = .ok (.imputer imp5Cols .mean (some c4Fitted)) ∧
    applyTransform (.imputer imp5Cols .mean (some c4Fitted))
        ⟨imp5Cols, [[("trip_start_timestamp", .num 5), ("trip_miles", .missing),
                     ("trip_seconds", .num 6)]]⟩
      = .ok ⟨imp5Cols, [[("trip_start_timestamp", .num 5), ("trip_miles", .num 3),
                         ("trip_seconds", .num 6)]]⟩ := by
  refine ⟨fun f c v hv => ?_, by decide, by decide, by decide⟩
  unfold impCell
  cases hf : f.find? (fun p => p.1 = c) with
  | none => rfl
  | some p => simp [hv]

/-- Witness for C4's pass-through conjunct at a concrete non-missing cell. -/
theorem imputer_mean_fit_and_apply_witness :
    impCell c4Fitted "trip_miles" (Value.num 5) = Value.num 5 :=
  imputer_mean_fit_and_apply.1 c4Fitted "trip_miles" (.num 5) (by decide)

/-- C8 counterexample: the claim says the packing transform fails with
`DimensionError` on every batch whose concatenated width is not 120, but
`concat_for_tensor` performs no width check at all: on a batch with two
feature columns (width 2 ≠ 120) it succeeds and packs a width-2 vector.
(There is no `DimensionError` in the source; `Err` has no such case.) -/
theorem packing_no_width_check_counterexample :
    applyTransform .mapConcat c8Batch
      = .ok ⟨["input", LABEL],
             [[("input", .vec [some 1, some 2]), (LABEL, .bool true)]]⟩ ∧
    (2 : Nat) ≠ 120 :=
  ⟨by decide, by decide⟩

/-- C8 (amended): the terminal packing transform concatenates the non-label
columns, in schema order, into one vector per record whose width equals the
number of those columns — width 120 exactly when the incoming schema has 120
feature columns; it performs no width check and raises no `DimensionError`
(the declared `INPUT_SIZE = 120` is enforced only downstream by the model's
input shape). -/
theorem packing_width_equals_feature_count :
    ∀ (df out : DataFrame), applyTransform .mapConcat df = .ok out →
      out.cols = ["input", LABEL] ∧
      ∀ i, i < df.rows.length → ∃ xs,
        cellAt (out.rows.getD i []) "input" = .vec xs ∧
        xs.length = (df.cols.filter (fun c => decide (c ≠ LABEL))).length ∧
        (xs.length = 120 ↔
          (df.cols.filter (fun c => decide (c ≠ LABEL))).length = 120) := by
  intro df out h
  obtain ⟨htc, hmr⟩ := applyTransform_ok_parts h
  constructor
  · by_cases hmem : LABEL ∈ df.cols
    · simp [tCols, hmem] at htc
      exact htc.symm
    · simp [tCols, hmem] at htc
  · intro i hi
    have hrow := mapME_ok_get ([] : Row) ([] : Row) hmr i hi
    simp only [rowFun] at hrow
    cases hfs : mapME (fun c => toF32 (cellAt (df.rows.getD i []) c))
        (df.cols.filter (fun c => decide (c ≠ LABEL))) with
    | error e => rw [hfs] at hrow; simp at hrow
    | ok fs =>
        rw [hfs] at hrow
        simp only [exc_bind_ok, Except.ok.injEq] at hrow
        refine ⟨fs, ?_, mapME_ok_length hfs, by simp [mapME_ok_length hfs]⟩
        rw [← hrow]
        rfl

/-- Witness for C8's amended theorem at the concrete width-2 batch. -/
theorem packing_width_equals_feature_count_witness :
    ∃ xs,
      cellAt ((⟨["input", LABEL],
        [[("input", Value.vec [some 1, some 2]), (LABEL, Value.bool true)]]⟩
          : DataFrame).rows.getD 0 []) "input" = .vec xs ∧
      xs.length = (c8Batch.cols.filter (fun c => decide (c ≠ LABEL))).length ∧
      (xs.length = 120 ↔
        (c8Batch.cols.filter (fun c => decide (c ≠ LABEL))).length = 120) :=
  (packing_width_equals_feature_count c8Batch
      ⟨["input", LABEL],
       [[("input", .vec [some 1, some 2]), (LABEL, .bool true)]]⟩
      (by decide)).2 0 (by decide)

set_option maxRecDepth 1000000 in
/-- C3: the categorical encoder fit with cardinality cap 2 on
`payment_type` over observed values `{cash: 100, card: 80, check: 1}`
retains `[cash, card]` (categories beyond the cap, by ascending frequency,
are folded away); at apply time a value not retained (unseen or folded,
such as `check`) produces `other = 1` with all retained indicators `0`;
and for any fitted state the encoder's apply never errors once the schema
check passes. -/
theorem ohe_cap_folds_to_other :
    topK 2 c3Stats = [.str "cash", .str "card"] ∧
    oheCell [("payment_type", [Scalar.str "cash", Scalar.str "card"])]
        ("payment_type", .str "check")
      = [("payment_type_cash", .num 0), ("payment_type_card", .num 0),
         ("payment_type_other", .num 1)] ∧
    (∀ (c : Col) (ret : List Scalar) (v : Value),
        (∀ cat ∈ ret, v ≠ cat.toValue) →
        oheCell [(c, ret)] (c, v)
          = ret.map (fun cat => (indName c cat, Value.num 0))
              ++ [(otherName c, Value.num 1)]) ∧
    (∀ (f : List (Col × List Scalar)) (df : DataFrame) (cols' : List Col),
        tCols (.oneHot oheCaps (some f)) df.cols = .ok cols' →
        applyTransform (.oneHot oheCaps (some f)) df
          = .ok ⟨cols', df.rows.map (fun r => r.flatMap (oheCell f))⟩) := by
  refine ⟨by decide, by decide, fun c ret v hv => ?_, fun f df cols' htc => ?_⟩
  · have hfind : List.find? (fun q => decide (q.1 = c)) [(c, ret)] = some (c, ret) :=
      List.find?_cons_of_pos _ (by simp)
    have h1 : ret.map (fun cat => (indName c cat, Value.num (if v = cat.toValue then 1 else 0)))
        = ret.map (fun cat => (indName c cat, Value.num 0)) :=
      List.map_congr_left (fun cat hcat => by rw [if_neg (hv cat hcat)])
    have hall : ret.all (fun cat => decide (v ≠ cat.toValue)) = true := by
      simp only [List.all_eq_true, decide_eq_true_eq]
      exact fun cat hcat => hv cat hcat
    simp only [oheCell, hfind, h1, hall]
    simp
  · have heq : rowFun (.oneHot oheCaps (some f)) df.cols
        = fun r => Except.ok (r.flatMap (oheCell f)) := rfl
    simp only [applyTransform, htc, exc_bind_ok, heq,
      mapME_pure (fun r => r.flatMap (oheCell f)) df.rows]

/-- Witness for C3's unseen-category conjunct at a concrete numeric value
absent from the retained categories. -/
theorem ohe_cap_folds_to_other_witness :
    oheCell [("payment_type", [Scalar.str "cash", Scalar.str "card"])]
        ("payment_type", .num 99)
      = [("payment_type_cash", .num 0), ("payment_type_card", .num 0),
         ("payment_type_other", .num 1)] :=
  ohe_cap_folds_to_other.2.2.1 "payment_type" [.str "cash", .str "card"]
    (.num 99) (by decide)

/-! ### Row-lookup lemmas for `get_data` -/

theorem findCol_append_of_none {c : Col} {r r' : Row} (h : findCol c r = none) :
    findCol c (r ++ r') = findCol c r' := by
  induction r with
  | nil => rfl
  | cons p r ih =>
      obtain ⟨d, v⟩ := p
      simp only [findCol] at h
      by_cases hd : d = c
      · simp [hd] at h
      · simp only [List.cons_append, findCol, if_neg hd]
        exact ih (by simpa [findCol, hd] using h)

theorem findCol_filter_notin {c : Col} {cs : List Col} (hc : c ∉ cs) :
    ∀ r : Row, findCol c (r.filter (fun p => decide (p.1 ∉ cs))) = findCol c r
  | [] => rfl
  | (d, v) :: r => by
      rw [List.filter_cons]
      by_cases hd : d ∈ cs
      · have hdc : d ≠ c := fun he => hc (he ▸ hd)
        have hp : (decide ((d, v).1 ∉ cs)) = false := by simp [hd]
        rw [hp, if_neg (by simp)]
        simp only [findCol, if_neg hdc]
        exact findCol_filter_notin hc r
      · have hp : (decide ((d, v).1 ∉ cs)) = true := by simp [hd]
        rw [hp, if_pos rfl]
        simp only [findCol]
        by_cases hdc : d = c
        · simp [hdc]
        · simp only [if_neg hdc]
          exact findCol_filter_notin hc r

theorem getD_map_of_lt (f : α → β) (l : List α) (i : Nat) (h : i < l.length)
    (d : α) (d' : β) : (l.map f).getD i d' = f (l.getD i d) := by
  rw [List.getD_eq_getElem?_getD, List.getD_eq_getElem?_getD,
    List.getElem?_map, List.getElem?_eq_getElem h]
  rfl

theorem getD_mem_of_lt (l : List α) (i : Nat) (d : α) (h : i < l.length) :
    l.getD i d ∈ l := by
  rw [List.getD_eq_getElem?_getD, List.getElem?_eq_getElem h]
  exact List.getElem_mem h

/-- C10: every frame returned by `get_data` on taxi-schema input carries the
boolean label column `is_big_tip`, equal rowwise to `tips / fare > 0.2`
(with float semantics at `fare = 0`: the label is true exactly when
`tips > 0`, since `t/0` is `±inf` for `t ≠ 0` and `0/0` is `NaN`, which
compares false), and carries none of the seven dropped columns. -/
theorem getData_label_and_drops :
    ∀ rows : List Row, (∀ r ∈ rows, findCol LABEL r = none) →
      (getData ⟨taxiSchema, rows⟩).cols = trainSchema ∧
      LABEL ∈ trainSchema ∧
      (∀ bad ∈ droppedCols, bad ∉ trainSchema) ∧
      (∀ i, i < rows.length →
        cellAt ((getData ⟨taxiSchema, rows⟩).rows.getD i []) LABEL
          = bigTip (cellAt (rows.getD i []) "tips") (cellAt (rows.getD i []) "fare")) ∧
      (∀ tq : ℚ, bigTip (.num tq) (.num 0) = .bool (decide (0 < tq))) := by
  intro rows hnone
  refine ⟨?_, by decide, by decide, fun i hi => ?_, fun tq => ?_⟩
  · show ((taxiSchema ++ [LABEL]).filter (fun c => decide (c ∉ droppedCols))) = trainSchema
    decide
  · have hrows : (getData ⟨taxiSchema, rows⟩).rows
        = (rows.map (fun r =>
            r ++ [(LABEL, bigTip (cellAt r "tips") (cellAt r "fare"))])).map
              (fun r => r.filter (fun p => decide (p.1 ∉ droppedCols))) := rfl
    rw [hrows, getD_map_of_lt _ _ i (by simpa using hi) [],
      getD_map_of_lt _ rows i hi []]
    unfold cellAt
    rw [findCol_filter_notin (by decide),
      findCol_append_of_none (hnone _ (getD_mem_of_lt rows i [] hi))]
    simp [findCol]
  · simp [bigTip, divGtFifth]

/-- Witness for C10 at a concrete one-row taxi frame. -/
theorem getData_label_and_drops_witness :
    (getData ⟨taxiSchema, [[("tips", Value.num 3), ("fare", Value.num 10)]]⟩).cols
      = trainSchema ∧
    cellAt ((getData ⟨taxiSchema,
        [[("tips", Value.num 3), ("fare", Value.num 10)]]⟩).rows.getD 0 []) LABEL
      = bigTip (Value.num 3) (Value.num 10) :=
  ⟨(getData_label_and_drops [[("tips", .num 3), ("fare", .num 10)]] (by decide)).1,
   (getData_label_and_drops [[("tips", .num 3), ("fare", .num 10)]] (by decide)).2.2.2.1
     0 (by decide)⟩

/-! ### Label-column tracking through the chain -/

theorem append_ne_label (a b : String) (hne : a.data ≠ [])
    (hc : a.data.head? ≠ some 'i') : a ++ b ≠ LABEL := by
  intro h
  have hd : a.data ++ b.data = LABEL.data := congrArg String.data h
  cases hdata : a.data with
  | nil => exact hne hdata
  | cons ch rest =>
      rw [hdata] at hd
      have h1 : some ch = LABEL.data.head? := by
        rw [← hd]
        rfl
      have h2 : LABEL.data.head? = some 'i' := by decide
      rw [h2] at h1
      have hch : ch = 'i' := by simpa using h1
      apply hc
      rw [hdata, hch]
      rfl

theorem pipeCols_cons_ok {t : Transform} {ts : Pipeline} {cols cols'' : List Col}
    (h : pipeCols (t :: ts) cols = .ok cols'') :
    ∃ mid, tCols t cols = .ok mid ∧ pipeCols ts mid = .ok cols'' := by
  simp only [pipeCols] at h
  cases htc : tCols t cols with
  | error e => rw [htc] at h; simp at h
  | ok mid =>
      rw [htc] at h
      exact ⟨mid, rfl, by simpa using h⟩

theorem tCols_imputer_ok {cs : List Col} {strat : Strategy}
    {f : Option (List (Col × Scalar))} {cols mid : List Col}
    (h : tCols (.imputer cs strat f) cols = .ok mid) : mid = cols := by
  cases f with
  | none => simp [tCols] at h
  | some f' =>
      simp only [tCols] at h
      cases hm : firstMissing cs cols with
      | some c => rw [hm] at h; simp at h
      | none => rw [hm] at h; simpa using h.symm

theorem tCols_ohe_ok {caps : List (Col × Option Nat)} {f : List (Col × List Scalar)}
    {cols mid : List Col} (h : tCols (.oneHot caps (some f)) cols = .ok mid) :
    mid = cols.flatMap (fun c =>
      match (f.find? (fun q => q.1 = c)) with
      | some q => q.2.map (indName c) ++ [otherName c]
      | none => [c]) := by
  simp only [tCols] at h
  cases hm : firstMissing (caps.map (·.1)) cols with
  | some c => rw [hm] at h; simp at h
  | none => rw [hm] at h; simpa using h.symm

theorem tCols_mapYear_ok {cols mid : List Col} (h : tCols .mapYear cols = .ok mid) :
    mid = cols.filter (fun c => decide (c ≠ tsCol)) ++ [yearCol] := by
  simp only [tCols] at h
  by_cases hts : tsCol ∈ cols
  · rw [if_pos hts] at h; simpa using h.symm
  · rw [if_neg hts] at h; simp at h

theorem tCols_mapConcat_ok {cols mid : List Col}
    (h : tCols .mapConcat cols = .ok mid) : LABEL ∈ cols := by
  simp only [tCols] at h
  by_cases hl : LABEL ∈ cols
  · exact hl
  · rw [if_neg hl] at h; simp at h

theorem label_notin_ohe_expansion (h : Col → List Scalar) {cols : List Col}
    (hl : LABEL ∉ cols) :
    LABEL ∉ cols.flatMap (fun c =>
      match ((oheCaps.map (fun p => (p.1, h p.1))).find? (fun q => q.1 = c)) with
      | some q => q.2.map (indName c) ++ [otherName c]
      | none => [c]) := by
  intro hmem
  rw [List.mem_flatMap] at hmem
  obtain ⟨c, hcin, hin⟩ := hmem
  cases hfind : (oheCaps.map (fun p => (p.1, h p.1))).find? (fun q => q.1 = c) with
  | none =>
      rw [hfind] at hin
      simp at hin
      exact hl (hin ▸ hcin)
  | some q =>
      rw [hfind] at hin
      have hq := List.mem_of_find?_eq_some hfind
      have hqc : q.1 = c := by simpa using List.find?_some hfind
      rw [List.mem_map] at hq
      obtain ⟨p, hp, hpq⟩ := hq
      have hc1 : p.1 = c := by rw [← hqc, ← hpq]
      subst hc1
      simp only [List.mem_append, List.mem_map, List.mem_singleton] at hin
      rcases hin with ⟨cat, _, hcat⟩ | hoth
      · revert hcat
        fin_cases hp <;>
          exact append_ne_label _ _ (by decide) (by decide)
      · revert hoth
        fin_cases hp <;>
          · intro hoth
            exact append_ne_label _ _ (by decide) (by decide) hoth.symm

theorem label_notin_mapYear {cols : List Col} (hl : LABEL ∉ cols) :
    LABEL ∉ cols.filter (fun c => decide (c ≠ tsCol)) ++ [yearCol] := by
  intro hmem
  rcases List.mem_append.mp hmem with hmem | hmem
  · exact hl (List.mem_of_mem_filter hmem)
  · rw [List.mem_singleton] at hmem
    exact absurd hmem (by decide)

/-- C9: `concat_for_tensor` unconditionally reads the label column
(`result[LABEL] = dataframe[LABEL]`), so on any batch whose schema lacks
`is_big_tip` the pipeline's final stage fails with a missing-column error;
`split_data` drops the label from `test_df`, so every serving batch built
from it lacks the label; and consequently a label-free request to the
served pipeline always yields an error — it can never be served. -/
theorem concat_requires_label :
    (∀ df : DataFrame, LABEL ∉ df.cols →
        applyTransform .mapConcat df = .error (.schemaError LABEL)) ∧
    (∀ (df : DataFrame) (idxs : List Nat), LABEL ∉ (splitTestDf df idxs).cols) ∧
    (∀ (g : Col → Scalar) (h : Col → List Scalar)
        (model : List (Option ℚ) → Except Unit ℚ) (df : DataFrame),
        LABEL ∉ df.cols →
        ∃ e, serveRequest model (fittedChain g h) df = .error (.client e)) := by
  refine ⟨fun df hl => ?_, fun df idxs => ?_, fun g h model df hl => ?_⟩
  · simp [applyTransform, tCols, hl]
  · intro hmem
    have hmem' : LABEL ∈ df.cols.filter (fun c => decide (c ∉ [LABEL])) := hmem
    simp [List.mem_filter] at hmem'
  · cases hap : applyPipeline (fittedChain g h) df with
    | error e => exact ⟨e, by simp [serveRequest, hap]⟩
    | ok out =>
        exfalso
        have hpc := applyPipeline_ok_cols _ hap
        simp only [fittedChain] at hpc
        obtain ⟨m1, h1, hpc⟩ := pipeCols_cons_ok hpc
        obtain ⟨m2, h2, hpc⟩ := pipeCols_cons_ok hpc
        obtain ⟨m3, h3, hpc⟩ := pipeCols_cons_ok hpc
        obtain ⟨m4, h4, hpc⟩ := pipeCols_cons_ok hpc
        obtain ⟨m5, h5, hpc⟩ := pipeCols_cons_ok hpc
        obtain ⟨m6, h6, hpc⟩ := pipeCols_cons_ok hpc
        obtain ⟨m7, h7, hpc⟩ := pipeCols_cons_ok hpc
        obtain ⟨m8, h8, hpc⟩ := pipeCols_cons_ok hpc
        rw [tCols_imputer_ok h1] at h2
        rw [tCols_imputer_ok h2] at h3
        rw [tCols_imputer_ok h3] at h4
        rw [tCols_imputer_ok h4] at h5
        rw [tCols_imputer_ok h5] at h6
        have hl6 : LABEL ∉ m6 := by
          rw [tCols_ohe_ok h6]
          exact label_notin_ohe_expansion h hl
        have hl7 : LABEL ∉ m7 := by
          rw [tCols_mapYear_ok h7]
          exact label_notin_mapYear hl6
        exact hl7 (tCols_mapConcat_ok h8)

/-- Witness for C9 at a concrete label-free request. -/
theorem concat_requires_label_witness :
    applyTransform .mapConcat (⟨["a"], [[("a", Value.num 1)]]⟩ : DataFrame)
      = .error (.schemaError LABEL) ∧
    ∃ e, serveRequest (fun _ => .ok 0) (fittedChain (fun _ => .num 0) (fun _ => []))
        ⟨["a"], [[("a", Value.num 1)]]⟩ = .error (.client e) :=
  ⟨concat_requires_label.1 _ (by decide),
   concat_requires_label.2.2 _ _ _ _ (by decide)⟩

/-- C7: a serving request whose record schema lacks one of the pipeline's
feature source columns is rejected with `SchemaError` naming that column by
the pipeline's own schema checks — for every model and every fitted state,
so the model is never consulted and (the pipeline being a pure value) no
shared state is touched. -/
theorem missing_source_column_rejected :
    ∀ (g : Col → Scalar) (h : Col → List Scalar)
      (model : List (Option ℚ) → Except Unit ℚ) (c : Col) (row : Row),
      c ∈ featureSourceCols →
      serveRequest model (fittedChain g h)
          ⟨trainSchema.filter (fun d => decide (d ≠ c)), [row]⟩
        = .error (.client (.schemaError c)) := by
  intro g h model c row hc
  fin_cases hc <;> rfl

/-- Witness for C7: a request missing `trip_miles` is rejected with
`SchemaError "trip_miles"` irrespective of the model. -/
theorem missing_source_column_rejected_witness :
    serveRequest (fun _ => .ok 0) (fittedChain (fun _ => .num 0) (fun _ => []))
        ⟨trainSchema.filter (fun d => decide (d ≠ "trip_miles")),
         [[("pickup_community_area", Value.num 1)]]⟩
      = .error (.client (.schemaError "trip_miles")) :=
  missing_source_column_rejected (fun _ => .num 0) (fun _ => [])
    (fun _ => .ok 0) "trip_miles" [("pickup_community_area", Value.num 1)] (by decide)

end TaxiPipe
